import Mathlib

/-!
Verification of the CI Status Resolver of
`catalog-analytics/app/api/github/ci-status/route.ts`.

The resolver maps a batch of repository identifiers to an aggregate CI
status per repository.  We embed the route handler shallowly: the two
GitHub collaborators (branch lookup and check-run listing) become oracle
functions passed as parameters, the ambient clock becomes a `now` string,
and the JavaScript object used as the result map becomes an association
list built with object-style upsert semantics.
-/

set_option autoImplicit false

namespace CIStatusResolver

/-- The five values of the `state` field of the `CIStatus` interface. -/
inductive State
  | success
  | failure
  | pending
  | error
  | unknown
deriving DecidableEq

/-- One check run as consumed by the route: the fields of the GitHub
check-run object that the handler reads (`check.app?.slug`, `check.name`,
`check.status`, `check.conclusion`, `check.completed_at`,
`check.started_at`).  Absent/null JSON fields are `none`. -/
structure CheckRun where
  name : String
  appSlug : Option String
  status : String
  conclusion : Option String
  startedAt : Option String
  completedAt : Option String
deriving DecidableEq

/-- The `CIStatus` result record of the route. -/
structure CIStatus where
  repo_id : String
  state : State
  total_checks : Nat
  updated_at : String
  details : Option String
deriving DecidableEq

/-- Drop leading and trailing whitespace of a character list. -/
def trimmedList (l : List Char) : List Char :=
  ((l.dropWhile Char.isWhitespace).reverse.dropWhile Char.isWhitespace).reverse

/-- JavaScript `String.prototype.trim`: drop leading and trailing
whitespace. -/
def trimStr (s : String) : String :=
  String.mk (trimmedList s.data)

/-- One character of the class `[A-Za-z0-9_.-]` of the repo-id pattern. -/
def isRepoChar (c : Char) : Bool :=
  c.isAlpha || c.isDigit || c == '_' || c == '.' || c == '-'

/-- Whether a string matches `/^[A-Za-z0-9_.-]+\/[A-Za-z0-9_.-]+$/`:
exactly one slash, and a nonempty run of allowed characters on each
side (the slash is not an allowed character, so splitting on it is
exact). -/
def matchesRepoPattern (s : String) : Bool :=
  match s.data.splitOn '/' with
  | [a, b] => !a.isEmpty && !b.isEmpty && a.all isRepoChar && b.all isRepoChar
  | _ => false

/-- `isValidRepoId` of the route: trim, then test the pattern. -/
def isValidRepoId (repo_id : String) : Bool :=
  matchesRepoPattern (trimStr repo_id)

/-- Truthiness of an optional string under JavaScript coercion:
`undefined`/`null` and the empty string are falsy. -/
def optTruthy : Option String → Bool
  | none => false
  | some s => !s.isEmpty

/-- JavaScript `a || b` on optional strings. -/
def jsOr (a b : Option String) : Option String :=
  if optTruthy a then a else b

/-- The token chain
`process.env.GH_TOKEN || process.env.CATALOG_GITHUB_TOKEN ||
process.env.GITHUB_TOKEN || process.env.METRICS_GITHUB_TOKEN`. -/
def tokenOf (gh cat hub met : Option String) : Option String :=
  jsOr (jsOr (jsOr gh cat) hub) met

/-- The Dependabot exclusion test of the loop:
`check.app?.slug === 'dependabot' || check.name === 'Dependabot'`. -/
def isDependabotCheck (c : CheckRun) : Bool :=
  c.appSlug == some "dependabot" || c.name == "Dependabot"

/-- The failing conclusions recognised by the loop. -/
def isFailureConclusion (c : Option String) : Bool :=
  c == some "failure" || c == some "timed_out" ||
    c == some "action_required" || c == some "startup_failure"

/-- Lexicographic comparison of character lists, by character order. -/
def charListLt : List Char → List Char → Bool
  | [], [] => false
  | [], _ :: _ => true
  | _ :: _, [] => false
  | a :: as, b :: bs =>
      if a < b then true
      else if b < a then false
      else charListLt as bs

/-- JavaScript `a < b` on strings: lexicographic by code unit (agreeing
with code points on the ISO-8601 timestamps compared here). -/
def strLt (a b : String) : Bool := charListLt a.data b.data

/-- The mutable state of the `for (const check of checkRuns)` loop. -/
structure ScanState where
  hasFailure : Bool
  hasPending : Bool
  mostRecentUpdate : String
deriving DecidableEq

/-- The final statements of each loop iteration: track the most recent
update time (`check.completed_at || check.started_at`, compared as
strings, with falsy values ignored). -/
def trackUpdate (st : ScanState) (c : CheckRun) : ScanState :=
  match jsOr c.completedAt c.startedAt with
  | some t =>
      if !t.isEmpty && (st.mostRecentUpdate.isEmpty ||
          strLt st.mostRecentUpdate t) then
        { st with mostRecentUpdate := t }
      else st
  | none => st

/-- One iteration of the loop over check runs: skip Dependabot checks,
mark pending/failure, and track the most recent update time. -/
def processCheck (st : ScanState) (c : CheckRun) : ScanState :=
  if isDependabotCheck c then st
  else
    trackUpdate
      (if c.status != "completed" then { st with hasPending := true }
       else if isFailureConclusion c.conclusion then { st with hasFailure := true }
       else st) c

/-- The tail of the per-repository resolution once the check-run listing
has been obtained (`data.check_runs || []` already applied): the empty
guard, the loop, and the final record. -/
def resolveWithChecks (repo_id : String) (checkRuns : List CheckRun)
    (now : String) : CIStatus :=
  if checkRuns.length == 0 then
    ⟨repo_id, State.unknown, 0, now, some "No CI configured"⟩
  else
    let fin := checkRuns.foldl processCheck ⟨false, false, ""⟩
    let st :=
      if fin.hasFailure then State.failure
      else if fin.hasPending then State.pending
      else State.success
    ⟨repo_id, st, checkRuns.length,
      if fin.mostRecentUpdate.isEmpty then now else fin.mostRecentUpdate,
      some (toString checkRuns.length ++ " check(s)")⟩

/-- Outcome of the branch-lookup collaborator
(`GET /repos/{id}/branches/main`): the head commit sha, HTTP 404, or any
other failure (non-ok status, network error, malformed payload). -/
inductive BranchLookup
  | found (sha : String)
  | notFound
  | failed
deriving DecidableEq

/-- Outcome of the check-run-listing collaborator
(`GET /repos/{id}/commits/{sha}/check-runs`): the `check_runs` field of
the payload (possibly absent), or any failure. -/
inductive ChecksLookup
  | listed (runs : Option (List CheckRun))
  | failed
deriving DecidableEq

/-- How many times each collaborator was invoked during one resolution. -/
structure Calls where
  branchCalls : Nat
  checksCalls : Nat
deriving DecidableEq

/-- The per-repository resolution (the body of the `repositories.map`
callback): validate, look up the main branch, list check runs, reduce.
Every failure is converted to a `CIStatus` record, never raised. -/
def resolveRepo (branch : String → BranchLookup)
    (checks : String → String → ChecksLookup)
    (now : String) (repo_id : String) : CIStatus × Calls :=
  let repoIdStr := trimStr repo_id
  if !isValidRepoId repoIdStr then
    (⟨repoIdStr, State.unknown, 0, now, some "Invalid repository identifier"⟩,
      ⟨0, 0⟩)
  else
    match branch repoIdStr with
    | BranchLookup.notFound =>
        (⟨repo_id, State.unknown, 0, now, some "Main branch not found"⟩, ⟨1, 0⟩)
    | BranchLookup.failed =>
        (⟨repo_id, State.unknown, 0, now, some "Error fetching status"⟩, ⟨1, 0⟩)
    | BranchLookup.found sha =>
        match checks repoIdStr sha with
        | ChecksLookup.failed =>
            (⟨repo_id, State.unknown, 0, now, some "Error fetching status"⟩,
              ⟨1, 1⟩)
        | ChecksLookup.listed runs =>
            (resolveWithChecks repo_id (runs.getD []) now, ⟨1, 1⟩)

/-- JavaScript object assignment `acc[k] = v`: overwrite in place if the
key is present, else append. -/
def upsert (m : List (String × CIStatus)) (k : String) (v : CIStatus) :
    List (String × CIStatus) :=
  if m.any (fun p => p.1 == k) then
    m.map (fun p => if p.1 == k then (k, v) else p)
  else m ++ [(k, v)]

/-- The `results.reduce((acc, status) => { acc[status.repo_id] = status; ... })`
construction of the result object. -/
def buildMap (results : List CIStatus) : List (String × CIStatus) :=
  results.foldl (fun acc s => upsert acc s.repo_id s) []

/-- Key lookup in the result object. -/
def lookupMap (m : List (String × CIStatus)) (k : String) : Option CIStatus :=
  (m.find? (fun p => p.1 == k)).map Prod.snd

/-- The body of the handler once `repositories` is known to be an array:
either the token-missing short circuit, or the fan-out over
`resolveRepo`.  Returns the result object together with the total
collaborator call counts. -/
def handleRepos (gh cat hub met : Option String)
    (branch : String → BranchLookup)
    (checks : String → String → ChecksLookup)
    (now : String) (repositories : List String) :
    List (String × CIStatus) × Calls :=
  if !optTruthy (tokenOf gh cat hub met) then
    (buildMap (repositories.map (fun repo_id =>
        ⟨repo_id, State.unknown, 0, now, some "GitHub token not configured"⟩)),
      ⟨0, 0⟩)
  else
    let results := repositories.map (resolveRepo branch checks now)
    (buildMap (results.map Prod.fst),
      ⟨(results.map (fun r => r.2.branchCalls)).sum,
        (results.map (fun r => r.2.checksCalls)).sum⟩)

/-- The request body as the handler sees it: `repositories` is an array
of strings (elements a JavaScript `String(...)` coercion has already
normalised), or the parsed JSON had no array there, or `request.json()`
itself rejected. -/
inductive RequestBody
  | reposArr (repositories : List String)
  | notArray
  | badJson
deriving DecidableEq

/-- The handler's response: the result object (HTTP 200), the 400
bad-request error, or the 500 catch-all error. -/
inductive ApiResponse
  | okMap (map : List (String × CIStatus))
  | badRequest (message : String)
  | internalError (message : String)
deriving DecidableEq

/-- The `POST` handler. -/
def post (gh cat hub met : Option String)
    (branch : String → BranchLookup)
    (checks : String → String → ChecksLookup)
    (now : String) (body : RequestBody) : ApiResponse × Calls :=
  match body with
  | RequestBody.badJson =>
      (ApiResponse.internalError "Failed to fetch CI statuses", ⟨0, 0⟩)
  | RequestBody.notArray =>
      (ApiResponse.badRequest
        "Invalid request: \"repositories\" must be an array of strings", ⟨0, 0⟩)
  | RequestBody.reposArr repositories =>
      let r := handleRepos gh cat hub met branch checks now repositories
      (ApiResponse.okMap r.1, r.2)

/-- The Dependabot exclusion of step 4 of the spec, as a filter over the
raw listing (the loop's `continue` realises it element by element). -/
def filteredChecks (runs : List CheckRun) : List CheckRun :=
  runs.filter (fun c => !isDependabotCheck c)

/-- Whether some check run of a list is completed with a failing
conclusion. -/
def anyFailure (runs : List CheckRun) : Bool :=
  runs.any (fun c => c.status == "completed" && isFailureConclusion c.conclusion)

/-- Whether some check run of a list is not yet completed. -/
def anyPending (runs : List CheckRun) : Bool :=
  runs.any (fun c => c.status != "completed")

/-- The key under which a repository identifier ends up in the result
object on the token-present path: invalid identifiers are keyed by their
trimmed form, all others by the identifier as given. -/
def keyOf (repo_id : String) : String :=
  if isValidRepoId repo_id then repo_id else trimStr repo_id

/-- Concrete fixture: a Dependabot check run that concluded with failure. -/
def depFailCheck : CheckRun :=
  ⟨"dep update", some "dependabot", "completed", some "failure",
    some "2024-01-01T00:00:00Z", some "2024-01-01T01:00:00Z"⟩

/-- Concrete fixture: an ordinary completed, successful check run. -/
def passCheck : CheckRun :=
  ⟨"build", some "github-actions", "completed", some "success",
    some "2024-01-02T00:00:00Z", some "2024-01-02T01:00:00Z"⟩

/-- Concrete fixture: an ordinary completed, failing check run. -/
def failCheck : CheckRun :=
  ⟨"test", some "github-actions", "completed", some "failure",
    some "2024-01-03T00:00:00Z", some "2024-01-03T01:00:00Z"⟩

/-- Concrete fixture: an ordinary check run still in progress. -/
def runningCheck : CheckRun :=
  ⟨"lint", some "github-actions", "in_progress", none,
    some "2024-01-04T00:00:00Z", none⟩

/-- Concrete fixture: a branch-lookup oracle that always reports 404. -/
def branchMissing : String → BranchLookup := fun _ => BranchLookup.notFound

/-- Concrete fixture: a branch-lookup oracle that always finds a fixed
head commit. -/
def branchSha : String → BranchLookup := fun _ => BranchLookup.found "abc123"

/-- Concrete fixture: a branch-lookup oracle that always fails. -/
def branchDown : String → BranchLookup := fun _ => BranchLookup.failed

/-- Concrete fixture: a check-listing oracle that always fails. -/
def checksDown : String → String → ChecksLookup := fun _ _ => ChecksLookup.failed

/-- Concrete fixture: a check-listing oracle returning a fixed listing. -/
def checksConst (runs : List CheckRun) : String → String → ChecksLookup :=
  fun _ _ => ChecksLookup.listed (some runs)

/-! ### Lemmas about the check-run scan -/

theorem trackUpdate_hasFailure (st : ScanState) (c : CheckRun) :
    (trackUpdate st c).hasFailure = st.hasFailure := by
  unfold trackUpdate
  split
  · split <;> rfl
  · rfl

theorem trackUpdate_hasPending (st : ScanState) (c : CheckRun) :
    (trackUpdate st c).hasPending = st.hasPending := by
  unfold trackUpdate
  split
  · split <;> rfl
  · rfl

theorem processCheck_hasFailure (st : ScanState) (c : CheckRun) :
    (processCheck st c).hasFailure =
      (st.hasFailure || (!isDependabotCheck c && (c.status == "completed") &&
        isFailureConclusion c.conclusion)) := by
  unfold processCheck
  cases hd : isDependabotCheck c with
  | true => simp [hd]
  | false =>
    simp only [hd, Bool.false_eq_true, if_false, trackUpdate_hasFailure,
      Bool.not_false, Bool.true_and]
    cases hs : c.status == "completed" with
    | false => simp [hs, ne_of_beq_false hs]
    | true =>
      cases hf : isFailureConclusion c.conclusion <;>
        simp [hs, hf, eq_of_beq hs]

theorem processCheck_hasPending (st : ScanState) (c : CheckRun) :
    (processCheck st c).hasPending =
      (st.hasPending || (!isDependabotCheck c && (c.status != "completed"))) := by
  unfold processCheck
  cases hd : isDependabotCheck c with
  | true => simp [hd]
  | false =>
    simp only [hd, Bool.false_eq_true, if_false, trackUpdate_hasPending,
      Bool.not_false, Bool.true_and]
    cases hs : c.status == "completed" with
    | false => simp [hs, bne, ne_of_beq_false hs]
    | true =>
      cases hf : isFailureConclusion c.conclusion <;>
        simp [hs, hf, bne, eq_of_beq hs]

theorem processCheck_of_dependabot (st : ScanState) (c : CheckRun)
    (h : isDependabotCheck c = true) : processCheck st c = st := by
  unfold processCheck
  simp [h]

theorem foldl_processCheck_hasFailure (runs : List CheckRun) (st : ScanState) :
    (runs.foldl processCheck st).hasFailure =
      (st.hasFailure || anyFailure (filteredChecks runs)) := by
  induction runs generalizing st with
  | nil => simp [anyFailure, filteredChecks]
  | cons c rest ih =>
    rw [List.foldl_cons, ih, processCheck_hasFailure]
    cases hd : isDependabotCheck c <;>
      simp [anyFailure, filteredChecks, hd, List.filter_cons, Bool.or_assoc]

theorem foldl_processCheck_hasPending (runs : List CheckRun) (st : ScanState) :
    (runs.foldl processCheck st).hasPending =
      (st.hasPending || anyPending (filteredChecks runs)) := by
  induction runs generalizing st with
  | nil => simp [anyPending, filteredChecks]
  | cons c rest ih =>
    rw [List.foldl_cons, ih, processCheck_hasPending]
    cases hd : isDependabotCheck c <;>
      simp [anyPending, filteredChecks, hd, List.filter_cons, Bool.or_assoc]

theorem foldl_processCheck_of_filtered_nil (runs : List CheckRun)
    (st : ScanState) (h : filteredChecks runs = []) :
    runs.foldl processCheck st = st := by
  induction runs generalizing st with
  | nil => rfl
  | cons c rest ih =>
    rw [filteredChecks, List.filter_cons] at h
    cases hd : isDependabotCheck c with
    | true =>
      rw [List.foldl_cons, processCheck_of_dependabot st c hd]
      refine ih st ?_
      simpa [hd, filteredChecks] using h
    | false => simp [hd] at h

/-! ### Lemmas about the per-repository reduction -/

theorem resolveWithChecks_nil (rid now : String) :
    resolveWithChecks rid [] now =
      ⟨rid, State.unknown, 0, now, some "No CI configured"⟩ := rfl

theorem resolveWithChecks_state (rid now : String) (runs : List CheckRun)
    (h : runs ≠ []) :
    (resolveWithChecks rid runs now).state =
      (if anyFailure (filteredChecks runs) then State.failure
       else if anyPending (filteredChecks runs) then State.pending
       else State.success) := by
  unfold resolveWithChecks
  rw [if_neg (by simp [List.length_eq_zero, h])]
  dsimp only
  rw [foldl_processCheck_hasFailure, foldl_processCheck_hasPending]
  simp only [Bool.false_or]

theorem resolveWithChecks_total_checks (rid now : String)
    (runs : List CheckRun) (h : runs ≠ []) :
    (resolveWithChecks rid runs now).total_checks = runs.length := by
  unfold resolveWithChecks
  rw [if_neg (by simp [List.length_eq_zero, h])]

theorem resolveWithChecks_details (rid now : String)
    (runs : List CheckRun) (h : runs ≠ []) :
    (resolveWithChecks rid runs now).details =
      some (toString runs.length ++ " check(s)") := by
  unfold resolveWithChecks
  rw [if_neg (by simp [List.length_eq_zero, h])]

theorem resolveWithChecks_repo_id (rid now : String) (runs : List CheckRun) :
    (resolveWithChecks rid runs now).repo_id = rid := by
  unfold resolveWithChecks
  split <;> rfl

/-! ### Trimming is idempotent -/

theorem dropWhile_idem {α : Type} (p : α → Bool) (l : List α) :
    (l.dropWhile p).dropWhile p = l.dropWhile p := by
  induction l with
  | nil => rfl
  | cons a t ih =>
    cases hpa : p a <;> simp [List.dropWhile_cons, hpa, ih]

theorem dropWhile_head_false {α : Type} (p : α → Bool) (l : List α) (x : α)
    (t : List α) (h : l.dropWhile p = x :: t) : p x = false := by
  induction l with
  | nil => simp at h
  | cons a r ih =>
    rw [List.dropWhile_cons] at h
    by_cases hpa : p a = true
    · exact ih (by simpa [hpa] using h)
    · rw [if_neg hpa] at h
      injection h with h1 h2
      subst h1
      simpa using hpa

theorem getLast?_dropWhile {α : Type} (p : α → Bool) (l : List α)
    (h : l.dropWhile p ≠ []) : (l.dropWhile p).getLast? = l.getLast? := by
  induction l with
  | nil => simp at h
  | cons a r ih =>
    rw [List.dropWhile_cons]
    by_cases hpa : p a = true
    · rw [List.dropWhile_cons, if_pos hpa] at h
      rw [if_pos hpa, ih h]
      cases r with
      | nil => simp at h
      | cons b rr => rw [List.getLast?_cons_cons]
    · rw [if_neg hpa]

theorem trimmedList_idem (l : List Char) :
    trimmedList (trimmedList l) = trimmedList l := by
  unfold trimmedList
  set k := l.dropWhile Char.isWhitespace with hkdef
  set m := k.reverse.dropWhile Char.isWhitespace with hmdef
  by_cases hmnil : m = []
  · simp [hmnil]
  · have hmne : m ≠ [] := hmnil
    have hkrne : k.reverse ≠ [] := by
      intro hkr
      rw [hmdef, hkr] at hmnil
      simp at hmnil
    have hkne : k ≠ [] := by
      intro hk
      rw [hk] at hkrne
      simp at hkrne
    obtain ⟨c, k2, hk⟩ := List.exists_cons_of_ne_nil hkne
    have hc : Char.isWhitespace c = false := by
      refine dropWhile_head_false Char.isWhitespace l c k2 ?_
      rw [← hkdef, hk]
    have hml : m.getLast? = some c := by
      rw [hmdef, getLast?_dropWhile Char.isWhitespace k.reverse
        (by rw [← hmdef]; exact hmne)]
      rw [List.getLast?_reverse, hk]
      rfl
    have hmh : m.reverse.head? = some c := by
      rw [List.head?_reverse]; exact hml
    have stepA : m.reverse.dropWhile Char.isWhitespace = m.reverse := by
      cases hrev : m.reverse with
      | nil => rfl
      | cons d td =>
        rw [hrev] at hmh
        injection hmh with hd
        subst hd
        rw [List.dropWhile_cons, if_neg (by simp [hc])]
    have stepB : m.dropWhile Char.isWhitespace = m := by
      rw [hmdef]
      exact dropWhile_idem Char.isWhitespace k.reverse
    rw [stepA, List.reverse_reverse, stepB]

theorem trimStr_idem (s : String) : trimStr (trimStr s) = trimStr s := by
  show String.mk (trimmedList (trimmedList s.data)) = String.mk (trimmedList s.data)
  rw [trimmedList_idem]

theorem isValidRepoId_trimStr (s : String) :
    isValidRepoId (trimStr s) = isValidRepoId s := by
  unfold isValidRepoId
  rw [trimStr_idem]

/-! ### Lemmas about the result object -/

theorem find?_replace_ne (m : List (String × CIStatus)) (k : String)
    (v : CIStatus) (q : String) (hqk : q ≠ k) :
    (m.map (fun p => if p.1 == k then (k, v) else p)).find?
        (fun p => p.1 == q) =
      m.find? (fun p => p.1 == q) := by
  induction m with
  | nil => rfl
  | cons p rs ih =>
    rw [List.map_cons]
    by_cases hpk : (p.1 == k) = true
    · have hp1 : p.1 = k := eq_of_beq hpk
      rw [if_pos hpk]
      rw [List.find?_cons_of_neg _ (by simp [Ne.symm hqk]),
        List.find?_cons_of_neg _ (by simp [hp1, Ne.symm hqk]), ih]
    · rw [if_neg hpk]
      by_cases hpq : (p.1 == q) = true
      · rw [List.find?_cons_of_pos (p := fun r : String × CIStatus => r.1 == q) _ hpq,
          List.find?_cons_of_pos (p := fun r : String × CIStatus => r.1 == q) _ hpq]
      · rw [List.find?_cons_of_neg (p := fun r : String × CIStatus => r.1 == q) _ hpq,
          List.find?_cons_of_neg (p := fun r : String × CIStatus => r.1 == q) _ hpq, ih]

theorem find?_replace_eq (m : List (String × CIStatus)) (k : String)
    (v : CIStatus) (hin : m.any (fun p => p.1 == k) = true) :
    (m.map (fun p => if p.1 == k then (k, v) else p)).find?
        (fun p => p.1 == k) = some (k, v) := by
  induction m with
  | nil => simp at hin
  | cons p rs ih =>
    rw [List.map_cons]
    by_cases hpk : (p.1 == k) = true
    · rw [if_pos hpk, List.find?_cons_of_pos _ (by simp)]
    · rw [if_neg hpk, List.find?_cons_of_neg (p := fun r : String × CIStatus => r.1 == k) _ hpk]
      refine ih ?_
      simpa [hpk] using hin

theorem lookupMap_upsert (m : List (String × CIStatus)) (k : String)
    (v : CIStatus) (q : String) :
    lookupMap (upsert m k v) q = if q = k then some v else lookupMap m q := by
  unfold upsert lookupMap
  by_cases hin : m.any (fun p => p.1 == k) = true
  · rw [if_pos hin]
    by_cases hqk : q = k
    · subst hqk
      rw [if_pos rfl, find?_replace_eq m q v hin]
      rfl
    · rw [if_neg hqk, find?_replace_ne m k v q hqk]
  · rw [if_neg hin, List.find?_append]
    by_cases hqk : q = k
    · subst hqk
      have hnone : m.find? (fun p => p.1 == q) = none := by
        rw [List.find?_eq_none]
        intro x hx hb
        exact hin (List.any_eq_true.mpr ⟨x, hx, hb⟩)
      rw [if_pos rfl, hnone]
      simp
    · rw [if_neg hqk]
      have h2 : (([(k, v)] : List (String × CIStatus)).find?
          (fun p => p.1 == q)) = none := by
        simp [Ne.symm hqk]
      rw [h2, Option.or_none]

theorem lookupMap_buildMap_foldl (es : List CIStatus)
    (acc : List (String × CIStatus)) (q : String) :
    lookupMap (es.foldl (fun a s => upsert a s.repo_id s) acc) q =
      (es.reverse.find? (fun e => e.repo_id == q)).or (lookupMap acc q) := by
  induction es generalizing acc with
  | nil => simp
  | cons e rest ih =>
    rw [List.foldl_cons, ih, List.reverse_cons, List.find?_append,
      Option.or_assoc, lookupMap_upsert]
    congr 1
    by_cases hqe : q = e.repo_id
    · simp [hqe]
    · simp [hqe, Ne.symm hqe]

theorem lookupMap_buildMap (es : List CIStatus) (q : String) :
    lookupMap (buildMap es) q =
      es.reverse.find? (fun e => e.repo_id == q) := by
  unfold buildMap
  rw [lookupMap_buildMap_foldl]
  simp [lookupMap]

theorem mem_keys_iff_lookup (m : List (String × CIStatus)) (q : String) :
    q ∈ m.map Prod.fst ↔ (lookupMap m q).isSome = true := by
  unfold lookupMap
  rw [Option.isSome_map', List.find?_isSome]
  constructor
  · intro hq
    obtain ⟨p, hp, he⟩ := List.mem_map.mp hq
    exact ⟨p, hp, by simp [he]⟩
  · rintro ⟨p, hp, hb⟩
    exact List.mem_map.mpr ⟨p, hp, eq_of_beq hb⟩

theorem fst_replace (m : List (String × CIStatus)) (k : String) (v : CIStatus) :
    (m.map (fun p => if p.1 == k then (k, v) else p)).map Prod.fst =
      m.map Prod.fst := by
  induction m with
  | nil => rfl
  | cons p rs ih =>
    rw [List.map_cons, List.map_cons, List.map_cons, ih]
    by_cases hpk : (p.1 == k) = true
    · rw [if_pos hpk]
      rw [show ((k, v) : String × CIStatus).1 = k from rfl,
        (eq_of_beq hpk).symm]
    · rw [if_neg hpk]

theorem any_key_iff (m : List (String × CIStatus)) (k : String) :
    m.any (fun p => p.1 == k) = true ↔ k ∈ m.map Prod.fst := by
  rw [List.any_eq_true]
  constructor
  · rintro ⟨p, hp, hb⟩
    exact List.mem_map.mpr ⟨p, hp, eq_of_beq hb⟩
  · intro hk
    obtain ⟨p, hp, he⟩ := List.mem_map.mp hk
    exact ⟨p, hp, by simp [he]⟩

theorem fst_upsert (m : List (String × CIStatus)) (k : String) (v : CIStatus) :
    (upsert m k v).map Prod.fst =
      if k ∈ m.map Prod.fst then m.map Prod.fst
      else m.map Prod.fst ++ [k] := by
  unfold upsert
  by_cases hin : m.any (fun p => p.1 == k) = true
  · rw [if_pos hin, if_pos ((any_key_iff m k).mp hin), fst_replace]
  · rw [if_neg hin, if_neg (fun hk => hin ((any_key_iff m k).mpr hk))]
    simp

theorem nodup_fst_upsert (m : List (String × CIStatus)) (k : String)
    (v : CIStatus) (h : (m.map Prod.fst).Nodup) :
    ((upsert m k v).map Prod.fst).Nodup := by
  rw [fst_upsert]
  by_cases hk : k ∈ m.map Prod.fst
  · rw [if_pos hk]; exact h
  · rw [if_neg hk]
    simp [List.nodup_append, h, hk]

theorem nodup_fst_buildMap (es : List CIStatus) :
    ((buildMap es).map Prod.fst).Nodup := by
  unfold buildMap
  suffices h : ∀ acc : List (String × CIStatus), (acc.map Prod.fst).Nodup →
      ((es.foldl (fun a s => upsert a s.repo_id s) acc).map Prod.fst).Nodup by
    exact h [] (by simp)
  induction es with
  | nil => intro acc hacc; exact hacc
  | cons e rest ih =>
    intro acc hacc
    rw [List.foldl_cons]
    exact ih _ (nodup_fst_upsert acc e.repo_id e hacc)

theorem mem_upsert (m : List (String × CIStatus)) (k : String) (v : CIStatus)
    (p : String × CIStatus) (h : p ∈ upsert m k v) : p ∈ m ∨ p = (k, v) := by
  unfold upsert at h
  by_cases hin : m.any (fun r => r.1 == k) = true
  · rw [if_pos hin] at h
    obtain ⟨p0, hp0, he⟩ := List.mem_map.mp h
    by_cases hpk : (p0.1 == k) = true
    · rw [if_pos hpk] at he
      exact Or.inr he.symm
    · rw [if_neg hpk] at he
      exact Or.inl (he ▸ hp0)
  · rw [if_neg hin] at h
    rcases List.mem_append.mp h with h1 | h2
    · exact Or.inl h1
    · exact Or.inr (List.mem_singleton.mp h2)

theorem mem_buildMap_aux (es : List CIStatus) (p : String × CIStatus) :
    ∀ acc : List (String × CIStatus),
      p ∈ es.foldl (fun a s => upsert a s.repo_id s) acc →
      p ∈ acc ∨ p.2 ∈ es := by
  induction es with
  | nil => intro acc hacc; exact Or.inl hacc
  | cons e rest ih =>
    intro acc hacc
    rw [List.foldl_cons] at hacc
    rcases ih (upsert acc e.repo_id e) hacc with hc | hc
    · rcases mem_upsert acc e.repo_id e p hc with hm | hm
      · exact Or.inl hm
      · right
        rw [hm]
        exact List.mem_cons_self e rest
    · right
      exact List.mem_cons_of_mem e hc

theorem mem_buildMap (es : List CIStatus) (p : String × CIStatus)
    (h : p ∈ buildMap es) : p.2 ∈ es := by
  unfold buildMap at h
  rcases mem_buildMap_aux es p [] h with hc | hc
  · simp at hc
  · exact hc

/-! ### Lemmas about the per-repository resolution -/

theorem resolveRepo_invalid (branch : String → BranchLookup)
    (checks : String → String → ChecksLookup) (now repo_id : String)
    (h : isValidRepoId repo_id = false) :
    resolveRepo branch checks now repo_id =
      (⟨trimStr repo_id, State.unknown, 0, now,
        some "Invalid repository identifier"⟩, ⟨0, 0⟩) := by
  unfold resolveRepo
  have hv : isValidRepoId (trimStr repo_id) = false := by
    rw [isValidRepoId_trimStr]; exact h
  simp [hv]

theorem resolveRepo_valid (branch : String → BranchLookup)
    (checks : String → String → ChecksLookup) (now repo_id : String)
    (h : isValidRepoId repo_id = true) :
    resolveRepo branch checks now repo_id =
      (match branch (trimStr repo_id) with
       | BranchLookup.notFound =>
           (⟨repo_id, State.unknown, 0, now, some "Main branch not found"⟩,
             ⟨1, 0⟩)
       | BranchLookup.failed =>
           (⟨repo_id, State.unknown, 0, now, some "Error fetching status"⟩,
             ⟨1, 0⟩)
       | BranchLookup.found sha =>
           match checks (trimStr repo_id) sha with
           | ChecksLookup.failed =>
               (⟨repo_id, State.unknown, 0, now, some "Error fetching status"⟩,
                 ⟨1, 1⟩)
           | ChecksLookup.listed runs =>
               (resolveWithChecks repo_id (runs.getD []) now, ⟨1, 1⟩)) := by
  unfold resolveRepo
  have hv : isValidRepoId (trimStr repo_id) = true := by
    rw [isValidRepoId_trimStr]; exact h
  simp [hv]

theorem keyOf_valid (repo_id : String) (h : isValidRepoId repo_id = true) :
    keyOf repo_id = repo_id := by
  unfold keyOf; rw [if_pos h]

theorem keyOf_invalid (repo_id : String) (h : isValidRepoId repo_id = false) :
    keyOf repo_id = trimStr repo_id := by
  unfold keyOf; rw [h]; rfl

theorem isValidRepoId_keyOf (repo_id : String) :
    isValidRepoId (keyOf repo_id) = isValidRepoId repo_id := by
  cases hv : isValidRepoId repo_id with
  | false => rw [keyOf_invalid repo_id hv, isValidRepoId_trimStr, hv]
  | true => rw [keyOf_valid repo_id hv, hv]

theorem resolveRepo_repo_id (branch : String → BranchLookup)
    (checks : String → String → ChecksLookup) (now repo_id : String) :
    (resolveRepo branch checks now repo_id).1.repo_id = keyOf repo_id := by
  cases hv : isValidRepoId repo_id with
  | false =>
    rw [resolveRepo_invalid branch checks now repo_id hv, keyOf_invalid repo_id hv]
  | true =>
    rw [resolveRepo_valid branch checks now repo_id hv, keyOf_valid repo_id hv]
    cases branch (trimStr repo_id) with
    | notFound => rfl
    | failed => rfl
    | found sha =>
      dsimp only
      cases checks (trimStr repo_id) sha with
      | failed => rfl
      | listed runs =>
        exact resolveWithChecks_repo_id repo_id now (runs.getD [])

theorem resolveRepo_keyOf_congr (branch : String → BranchLookup)
    (checks : String → String → ChecksLookup) (now : String) (a b : String)
    (h : keyOf a = keyOf b) :
    (resolveRepo branch checks now a).1 = (resolveRepo branch checks now b).1 := by
  have hvv : isValidRepoId a = isValidRepoId b := by
    rw [← isValidRepoId_keyOf a, ← isValidRepoId_keyOf b, h]
  cases hv : isValidRepoId a with
  | true =>
    have hvb : isValidRepoId b = true := by rw [← hvv]; exact hv
    rw [keyOf_valid a hv, keyOf_valid b hvb] at h
    rw [h]
  | false =>
    have hvb : isValidRepoId b = false := by rw [← hvv]; exact hv
    rw [keyOf_invalid a hv, keyOf_invalid b hvb] at h
    rw [resolveRepo_invalid branch checks now a hv,
      resolveRepo_invalid branch checks now b hvb]
    simp [h]

/-! ### Lemmas about the batch handler -/

theorem handleRepos_token (gh cat hub met : Option String)
    (branch : String → BranchLookup)
    (checks : String → String → ChecksLookup) (now : String)
    (repos : List String) (htok : optTruthy (tokenOf gh cat hub met) = true) :
    handleRepos gh cat hub met branch checks now repos =
      (buildMap (repos.map (fun repo_id => (resolveRepo branch checks now repo_id).1)),
        ⟨(repos.map (fun r => (resolveRepo branch checks now r).2.branchCalls)).sum,
          (repos.map (fun r => (resolveRepo branch checks now r).2.checksCalls)).sum⟩) := by
  unfold handleRepos
  rw [htok]
  simp only [Bool.not_true, Bool.false_eq_true, if_false, List.map_map]
  exact rfl

theorem handleRepos_notoken (gh cat hub met : Option String)
    (branch : String → BranchLookup)
    (checks : String → String → ChecksLookup) (now : String)
    (repos : List String) (htok : optTruthy (tokenOf gh cat hub met) = false) :
    handleRepos gh cat hub met branch checks now repos =
      (buildMap (repos.map (fun repo_id =>
          ⟨repo_id, State.unknown, 0, now, some "GitHub token not configured"⟩)),
        ⟨0, 0⟩) := by
  unfold handleRepos
  rw [htok]
  simp

theorem lookup_buildMap_map (repos : List String) (q : String)
    (f : String → CIStatus) (g : String → String)
    (hk : ∀ id, (f id).repo_id = g id) :
    lookupMap (buildMap (repos.map f)) q =
      (repos.reverse.find? (fun id => g id == q)).map f := by
  rw [lookupMap_buildMap, ← List.map_reverse, List.find?_map]
  have hp : ((fun e : CIStatus => e.repo_id == q) ∘ f) = (fun id => g id == q) := by
    funext id
    simp [Function.comp, hk]
  rw [hp]

theorem handleRepos_lookup_token (gh cat hub met : Option String)
    (branch : String → BranchLookup)
    (checks : String → String → ChecksLookup) (now : String)
    (repos : List String) (q : String)
    (htok : optTruthy (tokenOf gh cat hub met) = true) :
    lookupMap (handleRepos gh cat hub met branch checks now repos).1 q =
      (repos.reverse.find? (fun id => keyOf id == q)).map
        (fun id => (resolveRepo branch checks now id).1) := by
  rw [handleRepos_token gh cat hub met branch checks now repos htok]
  exact lookup_buildMap_map repos q _ keyOf
    (fun id => resolveRepo_repo_id branch checks now id)

theorem handleRepos_lookup_notoken (gh cat hub met : Option String)
    (branch : String → BranchLookup)
    (checks : String → String → ChecksLookup) (now : String)
    (repos : List String) (q : String)
    (htok : optTruthy (tokenOf gh cat hub met) = false) :
    lookupMap (handleRepos gh cat hub met branch checks now repos).1 q =
      (repos.reverse.find? (fun id => id == q)).map
        (fun id =>
          (⟨id, State.unknown, 0, now, some "GitHub token not configured"⟩ :
            CIStatus)) := by
  rw [handleRepos_notoken gh cat hub met branch checks now repos htok]
  exact lookup_buildMap_map repos q _ id (fun id => rfl)

/-! ### Permutation helpers -/

theorem any_of_perm {α : Type} {l1 l2 : List α} (h : l1.Perm l2)
    (p : α → Bool) : l1.any p = l2.any p := by
  cases hb : l2.any p
  · rw [List.any_eq_false] at hb ⊢
    intro x hx
    exact hb x (h.mem_iff.mp hx)
  · rw [List.any_eq_true] at hb ⊢
    obtain ⟨x, hx, hpx⟩ := hb
    exact ⟨x, h.mem_iff.mpr hx, hpx⟩

theorem find?_key_congr {f : String → CIStatus} {g : String → String}
    (hcong : ∀ a b, g a = g b → f a = f b)
    (repos1 repos2 : List String) (hp : repos1.Perm repos2) (q : String) :
    (repos1.reverse.find? (fun id => g id == q)).map f =
      (repos2.reverse.find? (fun id => g id == q)).map f := by
  cases hf1 : repos1.reverse.find? (fun id => g id == q) with
  | none =>
    have h2 : repos2.reverse.find? (fun id => g id == q) = none := by
      rw [List.find?_eq_none] at hf1 ⊢
      intro x hx
      refine hf1 x ?_
      rw [List.mem_reverse] at hx ⊢
      exact hp.mem_iff.mpr hx
    rw [h2]
  | some a =>
    have ha : g a = q :=
      eq_of_beq (List.find?_some (p := fun id => g id == q) hf1)
    have hmem : a ∈ repos2.reverse := by
      have hm := List.mem_of_find?_eq_some hf1
      rw [List.mem_reverse] at hm ⊢
      exact hp.mem_iff.mp hm
    have hsome : (repos2.reverse.find? (fun id => g id == q)).isSome := by
      rw [List.find?_isSome]
      exact ⟨a, hmem, by simp [ha]⟩
    obtain ⟨b, hb⟩ := Option.isSome_iff_exists.mp hsome
    have hbq : g b = q :=
      eq_of_beq (List.find?_some (p := fun id => g id == q) hb)
    rw [hb]
    show some (f a) = some (f b)
    rw [hcong a b (ha.trans hbq.symm)]

/-! ### The reachable states -/

theorem resolveWithChecks_state_ne_error (rid now : String)
    (runs : List CheckRun) :
    (resolveWithChecks rid runs now).state ≠ State.error := by
  by_cases h : runs = []
  · subst h
    rw [resolveWithChecks_nil]
    exact fun hc => State.noConfusion hc
  · rw [resolveWithChecks_state rid now runs h]
    split
    · exact fun hc => State.noConfusion hc
    · split <;> exact fun hc => State.noConfusion hc

theorem resolveRepo_state_ne_error (branch : String → BranchLookup)
    (checks : String → String → ChecksLookup) (now repo_id : String) :
    (resolveRepo branch checks now repo_id).1.state ≠ State.error := by
  cases hv : isValidRepoId repo_id with
  | false =>
    rw [resolveRepo_invalid branch checks now repo_id hv]
    exact fun hc => State.noConfusion hc
  | true =>
    rw [resolveRepo_valid branch checks now repo_id hv]
    cases branch (trimStr repo_id) with
    | notFound => exact fun hc => State.noConfusion hc
    | failed => exact fun hc => State.noConfusion hc
    | found sha =>
      dsimp only
      cases checks (trimStr repo_id) sha with
      | failed => exact fun hc => State.noConfusion hc
      | listed runs => exact resolveWithChecks_state_ne_error repo_id now (runs.getD [])

/-! ### The claims -/

/-- C1, counterexample: a repository whose only check run is a failing
Dependabot check has a non-empty raw listing and an empty filtered set,
yet the per-repository resolution returns `state=success` with
`totalChecks=1` — not `state=unknown` with `details="No CI configured"`
as claimed.  The emptiness guard of the code runs on the raw listing,
before the Dependabot exclusion. -/
theorem c1_counterexample :
    filteredChecks [depFailCheck] = [] ∧
    ([depFailCheck] : List CheckRun) ≠ [] ∧
    resolveRepo branchSha (checksConst [depFailCheck]) "T" "a/b" =
      (⟨"a/b", State.success, 1, "T", some "1 check(s)"⟩, ⟨1, 1⟩) ∧
    State.success ≠ State.unknown := by
  decide

/-- C1, amended: for a repository whose raw check-run listing is
non-empty but whose filtered set (after dropping Dependabot check runs)
is empty, the resolution returns `state=success` with
`totalChecks` equal to the raw count; the `details="No CI configured"`
outcome is reserved for an empty raw listing. -/
theorem c1_amended (rid now : String) (runs : List CheckRun)
    (h1 : runs ≠ []) (h2 : filteredChecks runs = []) :
    (resolveWithChecks rid runs now).state = State.success ∧
    (resolveWithChecks rid runs now).total_checks = runs.length ∧
    (resolveWithChecks rid runs now).details ≠ some "No CI configured" := by
  refine ⟨?_, resolveWithChecks_total_checks rid now runs h1, ?_⟩
  · rw [resolveWithChecks_state rid now runs h1, h2]
    rfl
  · rw [resolveWithChecks_details rid now runs h1]
    intro hc
    injection hc with hc2
    have hd : (toString runs.length ++ " check(s)").data.getLast? =
        ("No CI configured" : String).data.getLast? := by rw [hc2]
    rw [String.data_append, List.getLast?_append] at hd
    simp at hd

/-- C1, witness for the amended theorem at the concrete counterexample
input. -/
theorem c1_amended_witness :
    ([depFailCheck] : List CheckRun) ≠ [] ∧
    filteredChecks [depFailCheck] = [] ∧
    (resolveWithChecks "a/b" [depFailCheck] "T").state = State.success :=
  ⟨by decide, by decide,
    (c1_amended "a/b" "T" [depFailCheck] (by decide) (by decide)).1⟩

/-- C2, counterexample: with one Dependabot check and one ordinary
check, the filtered set has one element but the returned `totalChecks`
and the details string report 2, the raw count. -/
theorem c2_counterexample :
    (filteredChecks [depFailCheck, passCheck]).length = 1 ∧
    resolveRepo branchSha (checksConst [depFailCheck, passCheck]) "T" "a/b" =
      (⟨"a/b", State.success, 2, "2024-01-02T01:00:00Z", some "2 check(s)"⟩,
        ⟨1, 1⟩) := by
  decide

/-- C2, amended: for every repository that reaches the reduction step,
the returned `totalChecks` and the count in the details string equal the
number of RAW check runs returned by the collaborator, before the
Dependabot exclusion filter. -/
theorem c2_amended (rid now : String) (runs : List CheckRun)
    (h : runs ≠ []) :
    (resolveWithChecks rid runs now).total_checks = runs.length ∧
    (resolveWithChecks rid runs now).details =
      some (toString runs.length ++ " check(s)") :=
  ⟨resolveWithChecks_total_checks rid now runs h,
    resolveWithChecks_details rid now runs h⟩

/-- C2, witness for the amended theorem at the concrete counterexample
input. -/
theorem c2_amended_witness :
    ([depFailCheck, passCheck] : List CheckRun) ≠ [] ∧
    (resolveWithChecks "a/b" [depFailCheck, passCheck] "T").total_checks = 2 :=
  ⟨by decide,
    (c2_amended "a/b" "T" [depFailCheck, passCheck] (by decide)).1.trans
      (by decide)⟩

/-- C3, confirmed: for every non-empty filtered set of check runs, the
reduced state is `failure` if any filtered check run is completed with a
conclusion in `{failure, timed_out, action_required, startup_failure}`;
otherwise `pending` if any filtered check run has a status other than
`completed`; otherwise `success`.  Failure dominates pending, which
dominates success, evaluated over the whole filtered set. -/
theorem c3_reduction_precedence (rid now : String) (runs : List CheckRun)
    (h : filteredChecks runs ≠ []) :
    (resolveWithChecks rid runs now).state =
      (if anyFailure (filteredChecks runs) then State.failure
       else if anyPending (filteredChecks runs) then State.pending
       else State.success) := by
  have hr : runs ≠ [] := by
    intro he
    rw [he] at h
    exact h rfl
  exact resolveWithChecks_state rid now runs hr

/-- C3, witness: one completed-failing check plus one in-progress check
reduce to `failure` (failure dominates pending). -/
theorem c3_witness :
    filteredChecks [failCheck, runningCheck] ≠ [] ∧
    (resolveWithChecks "a/b" [failCheck, runningCheck] "T").state =
      State.failure :=
  ⟨by decide,
    (c3_reduction_precedence "a/b" "T" [failCheck, runningCheck]
      (by decide)).trans (by decide)⟩

/-- C4, counterexample: the identifier `" a/b "` does not match the
pattern `[A-Za-z0-9_.-]+/[A-Za-z0-9_.-]+` (it contains spaces), yet the
resolution trims it first, treats it as valid, and issues a branch-lookup
collaborator call (returning "Main branch not found" here, not "Invalid
repository identifier"). -/
theorem c4_counterexample :
    matchesRepoPattern " a/b " = false ∧
    (resolveRepo branchMissing checksDown "T" " a/b ").2.branchCalls = 1 ∧
    (resolveRepo branchMissing checksDown "T" " a/b ").1.details =
      some "Main branch not found" := by
  decide

/-- C4, amended: for every input identifier whose WHITESPACE-TRIMMED
form does not match the pattern, the resolution returns an entry (keyed
by the trimmed identifier) with `state=unknown`, `totalChecks=0` and
`details="Invalid repository identifier"`, and makes no collaborator
call. -/
theorem c4_amended (branch : String → BranchLookup)
    (checks : String → String → ChecksLookup) (now repo_id : String)
    (h : isValidRepoId repo_id = false) :
    resolveRepo branch checks now repo_id =
      (⟨trimStr repo_id, State.unknown, 0, now,
        some "Invalid repository identifier"⟩, ⟨0, 0⟩) :=
  resolveRepo_invalid branch checks now repo_id h

/-- C4, witness for the amended theorem at a concrete invalid
identifier. -/
theorem c4_amended_witness :
    isValidRepoId "not a repo id!!" = false ∧
    resolveRepo branchMissing checksDown "T" "not a repo id!!" =
      (⟨"not a repo id!!", State.unknown, 0, "T",
        some "Invalid repository identifier"⟩, ⟨0, 0⟩) :=
  ⟨by decide,
    (c4_amended branchMissing checksDown "T" "not a repo id!!"
      (by decide)).trans (by decide)⟩

/-- C5, confirmed: for a syntactically valid repository identifier, a
branch lookup reporting not-found yields `state=unknown`,
`totalChecks=0`, `details="Main branch not found"` with no check-run
listing call; any other branch-lookup failure, and any check-run-listing
failure, yields `state=unknown`, `totalChecks=0`,
`details="Error fetching status"`. -/
theorem c5_branch_errors (branch : String → BranchLookup)
    (checks : String → String → ChecksLookup) (now repo_id : String)
    (hv : isValidRepoId repo_id = true) :
    (branch (trimStr repo_id) = BranchLookup.notFound →
      resolveRepo branch checks now repo_id =
        (⟨repo_id, State.unknown, 0, now, some "Main branch not found"⟩,
          ⟨1, 0⟩)) ∧
    (branch (trimStr repo_id) = BranchLookup.failed →
      resolveRepo branch checks now repo_id =
        (⟨repo_id, State.unknown, 0, now, some "Error fetching status"⟩,
          ⟨1, 0⟩)) ∧
    (∀ sha, branch (trimStr repo_id) = BranchLookup.found sha →
      checks (trimStr repo_id) sha = ChecksLookup.failed →
      resolveRepo branch checks now repo_id =
        (⟨repo_id, State.unknown, 0, now, some "Error fetching status"⟩,
          ⟨1, 1⟩)) := by
  refine ⟨?_, ?_, ?_⟩
  · intro hb
    rw [resolveRepo_valid branch checks now repo_id hv, hb]
  · intro hb
    rw [resolveRepo_valid branch checks now repo_id hv, hb]
  · intro sha hb hc
    rw [resolveRepo_valid branch checks now repo_id hv, hb]
    dsimp only
    rw [hc]

/-- C5, witness: a valid identifier against a branch oracle reporting
404 yields the "Main branch not found" entry with zero check-listing
calls. -/
theorem c5_witness :
    isValidRepoId "a/b" = true ∧
    resolveRepo branchMissing checksDown "T" "a/b" =
      (⟨"a/b", State.unknown, 0, "T", some "Main branch not found"⟩,
        ⟨1, 0⟩) :=
  ⟨by decide,
    (c5_branch_errors branchMissing checksDown "T" "a/b" (by decide)).1 rfl⟩

/-- C6, counterexample: the two distinct input identifiers `"x "` and
`"x"` produce a single result entry, because an identifier failing
validation is keyed by its trimmed form.  The claim that the mapping has
exactly one entry PER DISTINCT INPUT IDENTIFIER is therefore false. -/
theorem c6_counterexample :
    ("x " ≠ "x") ∧
    (post (some "t") none none none branchMissing checksDown "T"
        (RequestBody.reposArr ["x ", "x"])).1 =
      ApiResponse.okMap
        [("x", ⟨"x", State.unknown, 0, "T",
          some "Invalid repository identifier"⟩)] := by
  decide

/-- C6, amended: the result mapping has exactly one entry per distinct
result key, where an identifier failing validation is keyed by its
trimmed form and every other identifier by itself; the entry stored
under a key is the resolution of the last input identifier with that key
(last-wins); an empty input yields an empty mapping. -/
theorem c6_amended (gh cat hub met : Option String)
    (branch : String → BranchLookup) (checks : String → String → ChecksLookup)
    (now : String) (repos : List String)
    (htok : optTruthy (tokenOf gh cat hub met) = true) :
    (post gh cat hub met branch checks now (RequestBody.reposArr repos)).1 =
      ApiResponse.okMap (handleRepos gh cat hub met branch checks now repos).1 ∧
    ((handleRepos gh cat hub met branch checks now repos).1.map Prod.fst).Nodup ∧
    (∀ q, q ∈ (handleRepos gh cat hub met branch checks now repos).1.map
        Prod.fst ↔ q ∈ repos.map keyOf) ∧
    (∀ q, lookupMap (handleRepos gh cat hub met branch checks now repos).1 q =
      (repos.reverse.find? (fun id => keyOf id == q)).map
        (fun id => (resolveRepo branch checks now id).1)) ∧
    (repos = [] → (handleRepos gh cat hub met branch checks now repos).1 = []) := by
  refine ⟨rfl, ?_, ?_, ?_, ?_⟩
  · rw [handleRepos_token gh cat hub met branch checks now repos htok]
    exact nodup_fst_buildMap _
  · intro q
    rw [mem_keys_iff_lookup,
      handleRepos_lookup_token gh cat hub met branch checks now repos q htok,
      Option.isSome_map', List.find?_isSome]
    simp [List.mem_reverse, List.mem_map]
  · exact fun q =>
      handleRepos_lookup_token gh cat hub met branch checks now repos q htok
  · intro he
    subst he
    rw [handleRepos_token gh cat hub met branch checks now [] htok]
    rfl

/-- C6, witness for the amended theorem: both `"x "` and `"x"` land on
the key `"x"`, whose entry is the invalid-identifier record. -/
theorem c6_amended_witness :
    optTruthy (tokenOf (some "t") none none none) = true ∧
    lookupMap (handleRepos (some "t") none none none branchMissing checksDown
        "T" ["x ", "x"]).1 "x" =
      some ⟨"x", State.unknown, 0, "T",
        some "Invalid repository identifier"⟩ := by
  refine ⟨by decide, ?_⟩
  rw [(c6_amended (some "t") none none none branchMissing checksDown "T"
    ["x ", "x"] (by decide)).2.2.2.1 "x"]
  decide

/-- C7, counterexample: the empty raw listing and a raw listing holding
only a Dependabot check have the same (empty) filtered set, yet resolve
to `unknown` and `success` respectively — so the state is not a pure
function of the filtered check-run set. -/
theorem c7_counterexample :
    filteredChecks [] = filteredChecks [depFailCheck] ∧
    (resolveWithChecks "a/b" [] "T").state = State.unknown ∧
    (resolveWithChecks "a/b" [depFailCheck] "T").state = State.success ∧
    State.unknown ≠ State.success := by
  decide

/-- C7, amended: the resolved state is invariant under permutation of
the check runs returned by the collaborator and under permutation of the
input repository identifiers; on repositories whose filtered set is
non-empty the state is a pure function of the filtered set; but for an
empty filtered set the state additionally depends on whether the raw
listing was empty. -/
theorem c7_amended (gh cat hub met : Option String)
    (branch : String → BranchLookup) (checks : String → String → ChecksLookup)
    (now rid : String) (runs1 runs2 : List CheckRun)
    (repos1 repos2 : List String) :
    (runs1.Perm runs2 →
      (resolveWithChecks rid runs1 now).state =
        (resolveWithChecks rid runs2 now).state) ∧
    (filteredChecks runs1 = filteredChecks runs2 → filteredChecks runs1 ≠ [] →
      (resolveWithChecks rid runs1 now).state =
        (resolveWithChecks rid runs2 now).state) ∧
    (repos1.Perm repos2 → ∀ q,
      lookupMap (handleRepos gh cat hub met branch checks now repos1).1 q =
        lookupMap (handleRepos gh cat hub met branch checks now repos2).1 q) := by
  refine ⟨?_, ?_, ?_⟩
  · intro hp
    by_cases h1 : runs1 = []
    · subst h1
      have h2 : runs2 = [] := by
        have hl := hp.length_eq
        simpa using hl.symm
      rw [h2]
    · have h2 : runs2 ≠ [] := by
        intro he
        apply h1
        have hl := hp.length_eq
        rw [he] at hl
        simpa using hl
      rw [resolveWithChecks_state rid now runs1 h1,
        resolveWithChecks_state rid now runs2 h2]
      have hf := hp.filter (fun c => !isDependabotCheck c)
      have e1 : anyFailure (filteredChecks runs1) =
          anyFailure (filteredChecks runs2) := any_of_perm hf _
      have e2 : anyPending (filteredChecks runs1) =
          anyPending (filteredChecks runs2) := any_of_perm hf _
      rw [e1, e2]
  · intro hfe hne
    have h1 : runs1 ≠ [] := by
      intro he
      apply hne
      rw [he]
      rfl
    have h2 : runs2 ≠ [] := by
      intro he
      apply hne
      rw [hfe, he]
      rfl
    rw [resolveWithChecks_state rid now runs1 h1,
      resolveWithChecks_state rid now runs2 h2, hfe]
  · intro hp q
    cases htok : optTruthy (tokenOf gh cat hub met) with
    | false =>
      rw [handleRepos_lookup_notoken gh cat hub met branch checks now repos1 q
        htok, handleRepos_lookup_notoken gh cat hub met branch checks now
        repos2 q htok]
      refine find?_key_congr (g := fun s => s) ?_ repos1 repos2 hp q
      intro a b hab
      have hab2 : a = b := hab
      rw [hab2]
    | true =>
      rw [handleRepos_lookup_token gh cat hub met branch checks now repos1 q
        htok, handleRepos_lookup_token gh cat hub met branch checks now
        repos2 q htok]
      exact find?_key_congr
        (fun a b hab => resolveRepo_keyOf_congr branch checks now a b hab)
        repos1 repos2 hp q

/-- C7, witness for the amended theorem: swapping the two check runs of
a listing leaves the resolved state unchanged. -/
theorem c7_amended_witness :
    ([failCheck, runningCheck] : List CheckRun).Perm
      [runningCheck, failCheck] ∧
    (resolveWithChecks "a/b" [failCheck, runningCheck] "T").state =
      (resolveWithChecks "a/b" [runningCheck, failCheck] "T").state :=
  ⟨List.Perm.swap runningCheck failCheck [],
    (c7_amended none none none none branchMissing checksDown "T" "a/b"
      [failCheck, runningCheck] [runningCheck, failCheck] [] []).1
      (List.Perm.swap runningCheck failCheck [])⟩

/-- C8, confirmed: when no GitHub token is configured (all four
environment variables absent or empty), the handler returns, for every
requested identifier, an entry with `state=unknown`, `totalChecks=0` and
`details="GitHub token not configured"`, and makes zero collaborator
calls. -/
theorem c8_no_token (gh cat hub met : Option String)
    (branch : String → BranchLookup) (checks : String → String → ChecksLookup)
    (now : String) (repos : List String)
    (htok : optTruthy (tokenOf gh cat hub met) = false) :
    post gh cat hub met branch checks now (RequestBody.reposArr repos) =
      (ApiResponse.okMap (buildMap (repos.map (fun repo_id =>
        ⟨repo_id, State.unknown, 0, now, some "GitHub token not configured"⟩))),
        ⟨0, 0⟩) ∧
    (∀ repo_id, repo_id ∈ repos →
      lookupMap (handleRepos gh cat hub met branch checks now repos).1
          repo_id =
        some ⟨repo_id, State.unknown, 0, now,
          some "GitHub token not configured"⟩) := by
  constructor
  · unfold post
    dsimp only
    rw [handleRepos_notoken gh cat hub met branch checks now repos htok]
  · intro repo_id hid
    rw [handleRepos_lookup_notoken gh cat hub met branch checks now repos
      repo_id htok]
    cases hf : repos.reverse.find? (fun id => id == repo_id) with
    | none =>
      rw [List.find?_eq_none] at hf
      have hmem : repo_id ∈ repos.reverse := List.mem_reverse.mpr hid
      have hcontra := hf repo_id hmem
      simp at hcontra
    | some a =>
      have ha : a = repo_id :=
        eq_of_beq (List.find?_some (p := fun id => id == repo_id) hf)
      rw [ha]
      rfl

/-- C8, witness at a concrete repository list with every token variable
absent. -/
theorem c8_witness :
    optTruthy (tokenOf none none none none) = false ∧
    post none none none none branchMissing checksDown "T"
        (RequestBody.reposArr ["a/b"]) =
      (ApiResponse.okMap [("a/b", ⟨"a/b", State.unknown, 0, "T",
        some "GitHub token not configured"⟩)], ⟨0, 0⟩) :=
  ⟨by decide,
    ((c8_no_token none none none none branchMissing checksDown "T" ["a/b"]
      (by decide)).1).trans (by decide)⟩

/-- C9, confirmed: every input whose `repositories` field is an array of
strings produces the result mapping (no per-repository failure is ever
raised to the caller); a non-ok response arises only for a request body
that is not an array of strings (the 400 bad-request error or the 500
catch-all), and that error response is distinct from any mapping
response. -/
theorem c9_error_signaling (gh cat hub met : Option String)
    (branch : String → BranchLookup) (checks : String → String → ChecksLookup)
    (now : String) :
    (∀ repos : List String,
      (post gh cat hub met branch checks now (RequestBody.reposArr repos)).1 =
        ApiResponse.okMap
          (handleRepos gh cat hub met branch checks now repos).1) ∧
    (∀ body : RequestBody,
      (∀ m, (post gh cat hub met branch checks now body).1 ≠
        ApiResponse.okMap m) →
      body = RequestBody.notArray ∨ body = RequestBody.badJson) ∧
    (post gh cat hub met branch checks now RequestBody.notArray).1 =
      ApiResponse.badRequest
        "Invalid request: \"repositories\" must be an array of strings" ∧
    (∀ (m : List (String × CIStatus)) (msg : String),
      ApiResponse.badRequest msg ≠ ApiResponse.okMap m) := by
  refine ⟨fun repos => rfl, ?_, rfl, ?_⟩
  · intro body hne
    cases body with
    | reposArr repos =>
      exact absurd rfl
        (hne (handleRepos gh cat hub met branch checks now repos).1)
    | notArray => exact Or.inl rfl
    | badJson => exact Or.inr rfl
  · intro m msg hc
    exact ApiResponse.noConfusion hc

/-- C9, witness: the empty batch returns an empty mapping, and the
not-an-array body is classified as the request-level error. -/
theorem c9_witness :
    (post none none none none branchMissing checksDown "T"
        (RequestBody.reposArr [])).1 = ApiResponse.okMap [] ∧
    (RequestBody.notArray = RequestBody.notArray ∨
      RequestBody.notArray = RequestBody.badJson) :=
  ⟨((c9_error_signaling none none none none branchMissing checksDown "T").1
      []).trans (by decide),
    (c9_error_signaling none none none none branchMissing checksDown "T").2.1
      RequestBody.notArray (fun m hc => ApiResponse.noConfusion hc)⟩

/-- C10, confirmed: no entry of any result mapping ever carries
`state=error`; although the declared state type has five values, only
`success`, `failure`, `pending` and `unknown` are reachable. -/
theorem c10_no_error_state (gh cat hub met : Option String)
    (branch : String → BranchLookup) (checks : String → String → ChecksLookup)
    (now : String) (body : RequestBody) (m : List (String × CIStatus))
    (k : String) (e : CIStatus)
    (hm : (post gh cat hub met branch checks now body).1 =
      ApiResponse.okMap m)
    (he : (k, e) ∈ m) : e.state ≠ State.error := by
  cases body with
  | badJson => exact absurd hm (fun hc => ApiResponse.noConfusion hc)
  | notArray => exact absurd hm (fun hc => ApiResponse.noConfusion hc)
  | reposArr repos =>
    have hmm : (handleRepos gh cat hub met branch checks now repos).1 = m :=
      ApiResponse.okMap.inj hm
    subst hmm
    cases htok : optTruthy (tokenOf gh cat hub met) with
    | false =>
      rw [handleRepos_notoken gh cat hub met branch checks now repos htok]
        at he
      have hv := mem_buildMap _ _ he
      obtain ⟨id, hid, heq⟩ := List.mem_map.mp hv
      have heq2 : (⟨id, State.unknown, 0, now,
          some "GitHub token not configured"⟩ : CIStatus) = e := heq
      rw [← heq2]
      exact fun hc => State.noConfusion hc
    | true =>
      rw [handleRepos_token gh cat hub met branch checks now repos htok] at he
      have hv := mem_buildMap _ _ he
      obtain ⟨id, hid, heq⟩ := List.mem_map.mp hv
      have heq2 : (resolveRepo branch checks now id).1 = e := heq
      rw [← heq2]
      exact resolveRepo_state_ne_error branch checks now id

/-- C10, witness at a concrete mapping entry. -/
theorem c10_witness :
    ((⟨"a/b", State.unknown, 0, "T", some "GitHub token not configured"⟩ :
      CIStatus)).state ≠ State.error :=
  c10_no_error_state none none none none branchMissing checksDown "T"
    (RequestBody.reposArr ["a/b"])
    [("a/b", ⟨"a/b", State.unknown, 0, "T",
      some "GitHub token not configured"⟩)]
    "a/b" ⟨"a/b", State.unknown, 0, "T", some "GitHub token not configured"⟩
    (by decide) (by decide)

end CIStatusResolver
